import Mathlib

/-!
Verification development for the goauth2 OAuth 2.0 server engine.

The definitions below are a shallow embedding of the Go source:
`handler.go` (master dispatch, authorization/token handlers, redirects,
bearer verification), `server.go` (request parsing, error interpretation,
query-pair setting, redirect-URI validation), `store.go` (`StoreImpl`
over an `AuthCache` backend) and `authcache/basicAuthCache.go`
(the in-memory `BasicAuthCache`).

Go's `net/url` standard-library pieces used by the source (`url.Parse`,
`url.Values` with `Get`/`Set`/`Encode`, `url.ParseQuery`) are modelled
directly; percent-escaping is omitted, and inputs used in concrete
witnesses contain no reserved characters.

The file `errors.go` of the repository (the `ServerError` struct, the
`errorCode` constants and `NewServerError`) is not part of the provided
sources; those pieces are modelled from the specification, as noted on
their doc comments.
-/

namespace Goauth2

/-- Cut a character list at the first occurrence of a (non-empty)
separator: the part before it and the part after it, or `none` when the
separator does not occur. -/
def listCutFirst (sep : List Char) : List Char → Option (List Char × List Char)
  | [] => none
  | c :: rest =>
    if List.isPrefixOf sep (c :: rest) then
      some ([], List.drop sep.length (c :: rest))
    else
      match listCutFirst sep rest with
      | some (pre, post) => some (c :: pre, post)
      | none => none

/-- Cut a string at the first occurrence of a separator: returns the part
before it and, when the separator occurs, the part after it. -/
def cutFirst (s sep : String) : String × Option String :=
  match listCutFirst sep.toList s.toList with
  | some (pre, post) => (String.mk pre, some (String.mk post))
  | none => (s, none)

/-- Split a character list on every occurrence of a separator, with
explicit fuel (each occurrence consumes at least one character, so fuel
`length + 1` suffices for a non-empty separator). -/
def listSplitOnFuel (sep : List Char) : Nat → List Char → List (List Char)
  | 0, l => [l]
  | fuel + 1, l =>
    match listCutFirst sep l with
    | some (pre, post) => pre :: listSplitOnFuel sep fuel post
    | none => [l]

/-- Models Go's `strings.Split` for a non-empty separator. -/
def strSplitOn (s sep : String) : List String :=
  (listSplitOnFuel sep.toList (s.toList.length + 1) s.toList).map String.mk

/-- Models Go's `url.Values` (a multimap from keys to values); modelled as
an association list. `url.Values.Set` replaces all values of a key. -/
abbrev Values := List (String × String)

/-- Models Go's `url.Values.Get`: first value for the key, `""` if absent. -/
def Values.get (v : Values) (k : String) : String :=
  match List.find? (fun p => p.1 == k) v with
  | some p => p.2
  | none => ""

/-- Models Go's `url.Values.Set`: replace all values of the key by one value. -/
def Values.set (v : Values) (k x : String) : Values :=
  List.filter (fun p => p.1 != k) v ++ [(k, x)]

/-- Whether a key is present in the values. -/
def Values.hasKey (v : Values) (k : String) : Bool :=
  (List.find? (fun p => p.1 == k) v).isSome

/-- Lexicographic strict order on character lists by code point (agrees
with Go's byte-wise string order, since UTF-8 preserves code-point
order). -/
def listCharLt : List Char → List Char → Bool
  | [], [] => false
  | [], _ :: _ => true
  | _ :: _, [] => false
  | a :: as, b :: bs =>
    if a.toNat < b.toNat then true
    else if b.toNat < a.toNat then false
    else listCharLt as bs

/-- Strict string order by code points. -/
def strLt (a b : String) : Bool := listCharLt a.toList b.toList

/-- Insert a pair into a key-sorted association list, keeping it sorted. -/
def insertByKey (p : String × String) : List (String × String) → List (String × String)
  | [] => [p]
  | q :: rest => if strLt p.1 q.1 then p :: q :: rest else q :: insertByKey p rest

/-- Sort an association list by key (Go's `url.Values.Encode` sorts keys). -/
def sortByKey (l : List (String × String)) : List (String × String) :=
  l.foldr insertByKey []

/-- Models Go's `url.Values.Encode`: keys sorted, `k=v` pairs joined by `&`
(percent-escaping omitted). -/
def Values.encode (v : Values) : String :=
  String.intercalate "&" ((sortByKey v).map (fun p => p.1 ++ "=" ++ p.2))

/-- Models Go's `url.ParseQuery` (unescaping omitted): split on `&`, each
segment split at the first `=`; empty segments are skipped. -/
def parseQuery (s : String) : Values :=
  if s = "" then ([] : List (String × String)) else
    (strSplitOn s "&").filterMap (fun seg =>
      if seg = "" then none
      else match cutFirst seg "=" with
        | (k, some val) => some (k, val)
        | (k, none) => some (k, ""))

/-- Models Go's `url.URL` restricted to the components the source uses:
scheme, opaque host+path, raw query, fragment. -/
structure URL where
  scheme : String
  hostpath : String
  rawQuery : String
  fragment : String
deriving DecidableEq, Repr

/-- Models Go's `url.Parse` on the URL shapes this system handles:
fragment after the first `#`, query after the first `?`, scheme before
`://` when present. `url.Parse` error returns are not modelled (they
require control characters never produced here). -/
def parseURL (s : String) : URL :=
  let fragCut := cutFirst s "#"
  let queryCut := cutFirst fragCut.1 "?"
  match cutFirst queryCut.1 "://" with
  | (sch, some rest) =>
    ⟨sch, rest, queryCut.2.getD "", fragCut.2.getD ""⟩
  | (_, none) =>
    ⟨"", queryCut.1, queryCut.2.getD "", fragCut.2.getD ""⟩

/-- Models Go's `url.URL.IsAbs`: the URL has a scheme. -/
def URL.IsAbs (u : URL) : Bool := u.scheme != ""

/-- Models Go's `url.URL.String` for the modelled components. -/
def URL.toGoString (u : URL) : String :=
  (if u.scheme != "" then u.scheme ++ "://" ++ u.hostpath else u.hostpath)
    ++ (if u.rawQuery != "" then "?" ++ u.rawQuery else "")
    ++ (if u.fragment != "" then "#" ++ u.fragment else "")

/-- Models Go's `url.URL.Query()`: parse the raw query. -/
def URL.query (u : URL) : Values := parseQuery u.rawQuery

/-! ### Error taxonomy (`errors.go`, absent from the provided sources) -/

/-- Modelled from the spec: `errors.go` is absent from the sources; Go's
`type errorCode string`. -/
abbrev ErrorCode := String

/-- Modelled from the spec: taxonomy member `invalid_request` (§7). -/
def ErrorCodeInvalidRequest : ErrorCode := "invalid_request"

/-- Modelled from the spec: taxonomy member `unsupported_response_type` (§7). -/
def ErrorCodeUnsupportedResponseType : ErrorCode := "unsupported_response_type"

/-- Modelled from the spec: taxonomy member `unsupported_grant_type` (§7). -/
def ErrorCodeUnsupportedGrantType : ErrorCode := "unsupported_grant_type"

/-- Modelled from the spec: taxonomy member `unauthorized_client` (§7). -/
def ErrorCodeUnauthorizedClient : ErrorCode := "unauthorized_client"

/-- Modelled from the spec: taxonomy member `access_denied` (§7). -/
def ErrorCodeAccessDenied : ErrorCode := "access_denied"

/-- Modelled from the spec: taxonomy member `bad_redirect_uri` (§7). -/
def ErrorCodeBadRedirectURI : ErrorCode := "bad_redirect_uri"

/-- Modelled from the spec: taxonomy member `invalid_token` (§7). -/
def ErrorCodeInvalidToken : ErrorCode := "invalid_token"

/-- Modelled from the spec: taxonomy member `server_error` (§7). -/
def ErrorCodeServerError : ErrorCode := "server_error"

/-- Modelled from the spec: `ServerError` carries `code` (taxonomy member),
`description` and an optional `uri` (§3); `errors.go` is absent from the
provided sources. Field accessors `Code()`, `Description()`, `URI()` are
the projections. -/
structure ServerError where
  code : ErrorCode
  description : String
  uri : String
deriving DecidableEq, Repr

/-- Modelled from the spec: the `NewServerError` constructor used
throughout the sources. -/
def NewServerError (code : ErrorCode) (description uri : String) : ServerError :=
  ⟨code, description, uri⟩

/-- Modelled from the spec: the Go `error`-string rendering of a
`ServerError` is not specified; it is modelled as `code ++ ": " ++
description`, a function of the `ServerError` value alone. -/
def ServerError.errorString (e : ServerError) : String :=
  e.code ++ ": " ++ e.description

/-- A Go `error` value as the source manipulates it: either a structured
`ServerError` (the type assertion `err.(ServerError)` succeeds) or any
other error carrying only a message (`errors.New`, `fmt.Errorf`). -/
inductive GoError where
  | server (e : ServerError)
  | plain (msg : String)
deriving DecidableEq, Repr

/-- Go's `err.Error()` on the modelled error values. -/
def GoError.errorMsg : GoError → String
  | .server e => e.errorString
  | .plain msg => msg

/-- Result of a Go call returning `(value..., err)`. -/
inductive GoResult (α : Type) where
  | ok (val : α)
  | err (e : GoError)
deriving DecidableEq, Repr

/-! ### `BasicAuthCache` (`authcache/basicAuthCache.go`) -/

/-- `authcache.CodeExpiry`. -/
def CodeExpiry : Int := 100

/-- `authcache.TokenExpiry`. -/
def TokenExpiry : Int := 3600

/-- `authcache.CacheEntry`. -/
structure CacheEntry where
  ClientID : String
  Scope : String
  RedirectURI : String
deriving DecidableEq, Repr

/-- Set a key in a Go map modelled as an association list. -/
def mapSet (m : List (String × CacheEntry)) (k : String) (v : CacheEntry) :
    List (String × CacheEntry) :=
  m.filter (fun p => p.1 != k) ++ [(k, v)]

/-- Look a key up in a Go map modelled as an association list. -/
def mapFind (m : List (String × CacheEntry)) (k : String) : Option CacheEntry :=
  (m.find? (fun p => p.1 == k)).map Prod.snd

/-- Delete a key from a Go map modelled as an association list. -/
def mapDelete (m : List (String × CacheEntry)) (k : String) :
    List (String × CacheEntry) :=
  m.filter (fun p => p.1 != k)

/-- `authcache.BasicAuthCache`: two maps, codes and tokens. -/
structure BasicAuthCache where
  AuthCodes : List (String × CacheEntry)
  AccessTokens : List (String × CacheEntry)
deriving DecidableEq, Repr

/-- `authcache.NewBasicAuthCache`. -/
def NewBasicAuthCache : BasicAuthCache := ⟨[], []⟩

/-- `BasicAuthCache.RegisterAuthCode`: store the entry under the code.
The source always returns a `nil` error; the spawned `DelayedDelete`
goroutine (TTL expiry) is modelled separately by `DeleteAuthCode`. -/
def BasicAuthCache.RegisterAuthCode (ac : BasicAuthCache)
    (clientID scope redirect_uri code : String) : BasicAuthCache :=
  { ac with AuthCodes := mapSet ac.AuthCodes code ⟨clientID, scope, redirect_uri⟩ }

/-- `BasicAuthCache.RegisterAccessToken`: store the entry under the token
and return `("bearer", TokenExpiry)`. The source always returns a `nil`
error; the spawned `DelayedDelete` goroutine is modelled separately by
`DeleteAccessToken`. -/
def BasicAuthCache.RegisterAccessToken (ac : BasicAuthCache)
    (clientID scope token : String) : (String × Int) × BasicAuthCache :=
  (("bearer", TokenExpiry),
    { ac with AccessTokens := mapSet ac.AccessTokens token ⟨clientID, scope, ""⟩ })

/-- `BasicAuthCache.LookupAuthCode`: return the registered
`(clientID, scope, redirect_uri)` or the error
`"AuthCode not found in Cache!"`. -/
def BasicAuthCache.LookupAuthCode (ac : BasicAuthCache) (code : String) :
    GoResult (String × String × String) :=
  match mapFind ac.AuthCodes code with
  | none => .err (.plain "AuthCode not found in Cache!")
  | some entry => .ok (entry.ClientID, entry.Scope, entry.RedirectURI)

/-- `BasicAuthCache.LookupAccessToken`: membership test, `nil` error. -/
def BasicAuthCache.LookupAccessToken (ac : BasicAuthCache) (token : String) : Bool :=
  (mapFind ac.AccessTokens token).isSome

/-- The effect of `authcache.DelayedDelete` on the auth-code map once the
code's TTL elapses. -/
def BasicAuthCache.DeleteAuthCode (ac : BasicAuthCache) (code : String) : BasicAuthCache :=
  { ac with AuthCodes := mapDelete ac.AuthCodes code }

/-- The effect of `authcache.DelayedDelete` on the access-token map once
the token's TTL elapses. -/
def BasicAuthCache.DeleteAccessToken (ac : BasicAuthCache) (token : String) : BasicAuthCache :=
  { ac with AccessTokens := mapDelete ac.AccessTokens token }

/-! ### Requests and `Server` (`server.go`) -/

/-- `goauth2.OAuthRequest` (the `Store` reference is passed explicitly to
the functions that need it). `RedirectURI` is `none` until the redirect
resolver sets it. -/
structure OAuthRequest where
  ClientID : String
  ResponseType : String
  redirectURI_raw : String
  RedirectURI : Option URL
  Scope : String
  State : String
deriving DecidableEq, Repr

/-- `goauth2.AccessTokenRequest`. -/
structure AccessTokenRequest where
  GrantType : String
  Code : String
  RedirectURI : String
deriving DecidableEq, Repr

/-- `Server.NewOAuthRequest`: extract the typed request from the query
parameters (`r.URL.Query()` is passed as `params`). -/
def NewOAuthRequest (params : Values) : OAuthRequest :=
  { ClientID := params.get "client_id"
    ResponseType := params.get "response_type"
    redirectURI_raw := params.get "redirect_uri"
    RedirectURI := none
    Scope := params.get "scope"
    State := params.get "state" }

/-- `Server.NewAccessTokenRequest`. -/
def NewAccessTokenRequest (params : Values) : AccessTokenRequest :=
  { GrantType := params.get "grant_type"
    Code := params.get "code"
    RedirectURI := params.get "redirect_uri" }

/-- `goauth2.Server`, reduced to the state the embedded functions read:
the registered error URIs (`errorURIs` is a Go map with `""` default). -/
structure Server where
  errorURIs : ErrorCode → String

/-- `Server.NewError`: build a `ServerError` with the registered URI for
its code. -/
def Server.NewError (s : Server) (code : ErrorCode) (description : String) : ServerError :=
  NewServerError code description (s.errorURIs code)

/-- A server with no registered error URIs, as `NewServer` creates it. -/
def defaultServer : Server := ⟨fun _ => ""⟩

/-- `Server.InterpretError`. When the type assertion `err.(ServerError)`
fails, the source calls `e.Error()` on the zero-valued `e` left by the
failed assertion — not on `err` — so the description it stores is the
error string of the zero `ServerError`. -/
def Server.InterpretError (s : Server) (err : GoError) : ServerError :=
  match err with
  | .plain _ => s.NewError ErrorCodeServerError (ServerError.errorString ⟨"", "", ""⟩)
  | .server e => if e.uri = "" then s.NewError e.code e.description else e

/-- `goauth2.setQueryPairs`: set each pair whose value is non-empty, in
order (the Go variadic flat pair list is modelled as a list of pairs). -/
def setQueryPairs (v : Values) (pairs : List (String × String)) : Values :=
  pairs.foldl (fun acc p => if p.2 != "" then acc.set p.1 p.2 else acc) v

/-- `goauth2.validateRedirectURI`: the URI must parse (parse failure is
not representable in the URL model), be absolute, and carry no fragment. -/
def validateRedirectURI (uri : String) : Except String URL :=
  let u := parseURL uri
  if !u.IsAbs then
    .error ("The redirection URI must be absolute: \"" ++ uri ++ "\".")
  else if u.fragment != "" then
    .error ("The redirection URI must not contain a fragment: \"" ++ uri ++ "\".")
  else
    .ok u

/-! ### `StoreImpl` over the basic cache (`store.go`) -/

/-- `StoreImpl.CreateAuthCode` with a `BasicAuthCache` backend. The fresh
random string drawn from the `RandStr` channel is passed as `newCode`;
the backend registers the request's client, scope and redirect URI under
it (`RegisterAuthCode` never fails in the basic cache). -/
def StoreImpl.CreateAuthCode (newCode : String) (ac : BasicAuthCache)
    (r : OAuthRequest) : String × BasicAuthCache :=
  (newCode, ac.RegisterAuthCode r.ClientID r.Scope
    ((r.RedirectURI.map URL.toGoString).getD "") newCode)

/-- `StoreImpl.CreateImplicitAccessToken` with a `BasicAuthCache`
backend. The fresh random string is passed as `newToken`. -/
def StoreImpl.CreateImplicitAccessToken (newToken : String) (ac : BasicAuthCache)
    (r : OAuthRequest) : (String × String × Int) × BasicAuthCache :=
  let reg := ac.RegisterAccessToken r.ClientID r.Scope newToken
  ((newToken, reg.1.1, reg.1.2), reg.2)

/-- `StoreImpl.CreateAccessToken` with a `BasicAuthCache` backend: look
the code up; on a found code compare the recorded redirect URI string
with the presented one — mismatch is a `bad_redirect_uri` `ServerError`;
on match register a fresh access token (`newToken`) and return it. -/
def StoreImpl.CreateAccessToken (newToken : String) (ac : BasicAuthCache)
    (r : AccessTokenRequest) : GoResult (String × String × Int) × BasicAuthCache :=
  match ac.LookupAuthCode r.Code with
  | .err e => (.err e, ac)
  | .ok (cid, scope, uri) =>
    if uri != r.RedirectURI then
      (.err (.server (NewServerError ErrorCodeBadRedirectURI "Redirect URI Incorrect." "")), ac)
    else
      let reg := ac.RegisterAccessToken cid scope newToken
      (.ok (newToken, reg.1.1, reg.1.2), reg.2)

/-- `StoreImpl.ValidateAccessToken` with a `BasicAuthCache` backend: the
authorization field is used as the token directly (the source's `TODO`),
and looked up; the basic cache's lookup never errors. -/
def StoreImpl.ValidateAccessToken (ac : BasicAuthCache)
    (authorization_field : String) : Bool :=
  ac.LookupAccessToken authorization_field

/-! ### Redirect encoders (`AuthCodeRedirect`, `ImplicitRedirect`) -/

/-- The error-field block shared verbatim by `AuthCodeRedirect` and
`ImplicitRedirect`: a `ServerError` contributes its code, description and
URI; any other error is encoded with code `access_denied`, its message as
the description, and no URI. -/
def encodeErrorPairs (q : Values) (err : GoError) : Values :=
  match err with
  | .server e =>
    setQueryPairs q [("error", e.code), ("error_description", e.description), ("error_uri", e.uri)]
  | .plain msg =>
    setQueryPairs q [("error", ErrorCodeAccessDenied), ("error_description", msg), ("error_uri", "")]

/-- The query `OAuthRequest.AuthCodeRedirect` builds before encoding it
into the redirect target: the redirect URI's own query, then `state` (if
non-empty), then on success a fresh code from `CreateAuthCode` set under
`code`, or on error the error fields. -/
def OAuthRequest.AuthCodeRedirectQuery (req : OAuthRequest) (newCode : String)
    (ac : BasicAuthCache) (err : Option GoError) : Values × BasicAuthCache :=
  let u := req.RedirectURI.getD (parseURL "")
  let query := setQueryPairs u.query [("state", req.State)]
  match err with
  | none =>
    let created := StoreImpl.CreateAuthCode newCode ac req
    (query.set "code" created.1, created.2)
  | some e => (encodeErrorPairs query e, ac)

/-- `OAuthRequest.AuthCodeRedirect`: the 302 redirect target is the
redirect URI with its `RawQuery` replaced by the encoded query (the
fragment is untouched). -/
def OAuthRequest.AuthCodeRedirect (req : OAuthRequest) (newCode : String)
    (ac : BasicAuthCache) (err : Option GoError) : URL × BasicAuthCache :=
  let built := req.AuthCodeRedirectQuery newCode ac err
  ({ req.RedirectURI.getD (parseURL "") with rawQuery := built.1.encode }, built.2)

/-- The fragment query `OAuthRequest.ImplicitRedirect` builds: parse the
redirect URI's fragment (total in this model, so the source's
`bad_redirect_uri` parse-failure branch is unreachable), set `state` (if
non-empty); when called without an error, draw a token from
`CreateImplicitAccessToken` and set `token`, `token_type` and — when the
expiry is positive — `expires_in` (the source's inner `err` from the
store shadows the outer one and is dropped; the basic cache never errs);
when called with an error, the error fields are encoded instead. -/
def OAuthRequest.ImplicitRedirectQuery (req : OAuthRequest) (newToken : String)
    (ac : BasicAuthCache) (err : Option GoError) : Values × BasicAuthCache :=
  let u := req.RedirectURI.getD (parseURL "")
  let query := setQueryPairs (parseQuery u.fragment) [("state", req.State)]
  let built :=
    match err with
    | none =>
      let created := StoreImpl.CreateImplicitAccessToken newToken ac req
      let q2 := setQueryPairs query
        [("token", created.1.1), ("token_type", created.1.2.1)]
      let q3 := if created.1.2.2 > 0 then
          setQueryPairs q2 [("expires_in", toString created.1.2.2)]
        else q2
      (q3, created.2)
    | some _ => (query, ac)
  match err with
  | some e => (encodeErrorPairs built.1 e, built.2)
  | none => built

/-- `OAuthRequest.ImplicitRedirect`: the 302 redirect target is the
redirect URI with its `Fragment` replaced by the encoded query (the raw
query is untouched). -/
def OAuthRequest.ImplicitRedirect (req : OAuthRequest) (newToken : String)
    (ac : BasicAuthCache) (err : Option GoError) : URL × BasicAuthCache :=
  let built := req.ImplicitRedirectQuery newToken ac err
  ({ req.RedirectURI.getD (parseURL "") with fragment := built.1.encode }, built.2)

/-! ### Authorization endpoint (`HandleOAuthRequest`) and dispatch -/

/-- Which grant flow's authentication capability was handed the request. -/
inductive Flow where
  | code
  | implicit
deriving DecidableEq, Repr

/-- The externally observable outcome of `Server.HandleOAuthRequest`:
the error returned to the caller (rendered by `masterHandlerImpl` as a
direct JSON body), the target of the step-5.1 error 302 if one was
issued, and which authentication capability (if any) was invoked. -/
structure HandlerOutcome where
  returnedErr : Option GoError
  errorRedirectTarget : Option URL
  authInvoked : Option Flow
deriving DecidableEq, Repr

/-- Step 2 of `Server.HandleOAuthRequest`: the `if`/`else if` parameter
validation chain — empty `client_id`, then empty `response_type`, then
`response_type` outside `{code, token}`. -/
def Server.validateOAuthParams (s : Server) (req : OAuthRequest) : Option ServerError :=
  if req.ClientID = "" then
    some (s.NewError ErrorCodeInvalidRequest "The \"client_id\" parameter is missing.")
  else if req.ResponseType = "" then
    some (s.NewError ErrorCodeInvalidRequest "The \"response_type\" parameter is missing.")
  else if ¬(req.ResponseType = "code" ∨ req.ResponseType = "token") then
    some (s.NewError ErrorCodeUnsupportedResponseType
      ("The response type \"" ++ req.ResponseType ++ "\" is not supported."))
  else
    none

/-- `Server.HandleOAuthRequest`. Step 3 (redirect resolution) runs only
when step 2 produced no error (`if err == nil` in the source); step 4
returns the error directly when no redirect URI was established; step
5.1 would issue an error redirect when an error coexists with an
established redirect URI (unreachable given steps 2–4); step 5.2 hands
the request to the authentication capability. -/
def Server.HandleOAuthRequest (s : Server) (newCode newToken : String)
    (ac : BasicAuthCache) (params : Values) : HandlerOutcome × BasicAuthCache :=
  let req0 := NewOAuthRequest params
  let step2 := s.validateOAuthParams req0
  let step3 : OAuthRequest × Option ServerError :=
    match step2 with
    | none =>
      match validateRedirectURI req0.redirectURI_raw with
      | .ok u => ({ req0 with RedirectURI := some u }, none)
      | .error msg =>
        (req0, some (if req0.redirectURI_raw = "" then
            s.NewError ErrorCodeInvalidRequest "Missing redirection URI."
          else
            s.NewError ErrorCodeInvalidRequest msg))
    | some e => (req0, some e)
  let req := step3.1
  let err := step3.2
  match req.RedirectURI with
  | none => (⟨err.map GoError.server, none, none⟩, ac)
  | some _ =>
    let step51 : Option URL × BasicAuthCache :=
      match err with
      | some e =>
        if req.ResponseType = "code" then
          let red := req.AuthCodeRedirect newCode ac (some (.server e))
          (some red.1, red.2)
        else
          let red := req.ImplicitRedirect newToken ac (some (.server e))
          (some red.1, red.2)
      | none => (none, ac)
    let flow := if req.ResponseType = "code" then Flow.code else Flow.implicit
    (⟨none, step51.1, some flow⟩, step51.2)

/-- The two endpoints `masterHandlerImpl` dispatches between. -/
inductive MasterBranch where
  | oauthRequest
  | accessTokenRequest
deriving DecidableEq, Repr

/-- The dispatch decision of `Server.masterHandlerImpl`: it reads only
`response_type` from the request's query; non-empty selects
`HandleOAuthRequest`, empty selects `HandleAccessTokenRequest`. -/
def masterHandlerImpl (params : Values) : MasterBranch :=
  if params.get "response_type" != "" then .oauthRequest else .accessTokenRequest

/-! ### Bearer verification (`VerifyToken`, `TokenVerifier`) -/

/-- `Server.VerifyToken`. The `Authorization` header is modelled as Go's
`r.Header.Get` result (the empty string when absent). The source's second
branch tests the named return `err` — still `nil` there — rather than the
store's error `e2`, so that branch never fires; the basic cache's
`ValidateAccessToken` never errors anyway. -/
def Server.VerifyToken (s : Server) (ac : BasicAuthCache)
    (authField : String) : Option ServerError :=
  if authField = "" then
    some (s.NewError ErrorCodeInvalidRequest
      "The \"Authorization\" header field is missing.")
  else if !StoreImpl.ValidateAccessToken ac authField then
    some (s.NewError ErrorCodeInvalidToken "The Access Token is invalid.")
  else
    none

/-- Outcome of the `TokenVerifier` middleware on one request: either a
response with the given status and body, or execution of the wrapped
handler. -/
inductive VerifierOutcome where
  | rejected (status : Nat) (body : String)
  | handlerExecuted
deriving DecidableEq, Repr

/-- `Server.TokenVerifier`: when `VerifyToken` fails, write status 401
and the error's `Error()` string, and do not run the wrapped handler;
otherwise run it. -/
def Server.TokenVerifier (s : Server) (ac : BasicAuthCache)
    (authField : String) : VerifierOutcome :=
  match s.VerifyToken ac authField with
  | some e => .rejected 401 (GoError.errorMsg (.server e))
  | none => .handlerExecuted

/-! ### Association-list and query lemmas -/

theorem find_filter_append_self {α : Type} (l : List (String × α)) (k : String) (v : α) :
    List.find? (fun p => p.1 == k) (List.filter (fun p => p.1 != k) l ++ [(k, v)]) = some (k, v) := by
  induction l with
  | nil => simp
  | cons a t ih =>
    by_cases h : a.1 = k
    · have hb : (a.1 != k) = false := by simp [h]
      rw [List.filter_cons, hb]
      simp only [Bool.false_eq_true, if_false]
      exact ih
    · have hb : (a.1 != k) = true := by simp [h]
      have hb2 : (a.1 == k) = false := by simp [h]
      rw [List.filter_cons, hb]
      simp only [if_true, List.cons_append]
      rw [List.find?_cons_of_neg _ (by simp [hb2])]
      exact ih

theorem find_filter_append_ne {α : Type} (l : List (String × α)) (k k' : String) (v : α)
    (h : k' ≠ k) :
    List.find? (fun p => p.1 == k') (List.filter (fun p => p.1 != k) l ++ [(k, v)]) =
      List.find? (fun p => p.1 == k') l := by
  induction l with
  | nil =>
    have : (k == k') = false := by simp [Ne.symm h]
    simp [List.find?, this]
  | cons a t ih =>
    by_cases ha : a.1 = k
    · have hb : (a.1 != k) = false := by simp [ha]
      have hk' : (a.1 == k') = false := by simp [ha, Ne.symm h]
      rw [List.filter_cons, hb]
      simp only [Bool.false_eq_true, if_false]
      rw [List.find?_cons_of_neg _ (by simp [hk'])]
      exact ih
    · have hb : (a.1 != k) = true := by simp [ha]
      rw [List.filter_cons, hb]
      simp only [if_true, List.cons_append]
      by_cases hk : a.1 = k'
      · have hk2 : (a.1 == k') = true := by simp [hk]
        rw [List.find?_cons_of_pos _ (by simp [hk2]), List.find?_cons_of_pos _ (by simp [hk2])]
      · have hk2 : (a.1 == k') = false := by simp [hk]
        rw [List.find?_cons_of_neg _ (by simp [hk2]), List.find?_cons_of_neg _ (by simp [hk2])]
        exact ih

theorem find_filter_self_none {α : Type} (l : List (String × α)) (k : String) :
    List.find? (fun p => p.1 == k) (List.filter (fun p => p.1 != k) l) = none := by
  induction l with
  | nil => simp
  | cons a t ih =>
    by_cases h : a.1 = k
    · have hb : (a.1 != k) = false := by simp [h]
      rw [List.filter_cons, hb]
      simp only [Bool.false_eq_true, if_false]
      exact ih
    · have hb : (a.1 != k) = true := by simp [h]
      rw [List.filter_cons, hb]
      simp only [if_true]
      rw [List.find?_cons_of_neg _ (by simp [h])]
      exact ih

theorem Values.get_set_self (v : Values) (k x : String) : (v.set k x).get k = x := by
  simp only [Values.get, Values.set]
  rw [find_filter_append_self]

theorem Values.get_set_ne (v : Values) (k k' x : String) (h : k' ≠ k) :
    (v.set k x).get k' = v.get k' := by
  simp only [Values.get, Values.set]
  rw [find_filter_append_ne v k k' x h]

theorem Values.hasKey_set_self (v : Values) (k x : String) : (v.set k x).hasKey k = true := by
  simp only [Values.hasKey, Values.set]
  rw [find_filter_append_self]
  rfl

theorem Values.hasKey_set_ne (v : Values) (k k' x : String) (h : k' ≠ k) :
    (v.set k x).hasKey k' = v.hasKey k' := by
  simp only [Values.hasKey, Values.set]
  rw [find_filter_append_ne v k k' x h]

theorem mapFind_mapSet_self (m : List (String × CacheEntry)) (k : String) (v : CacheEntry) :
    mapFind (mapSet m k v) k = some v := by
  simp only [mapFind, mapSet]
  rw [find_filter_append_self]
  rfl

theorem mapFind_mapDelete_self (m : List (String × CacheEntry)) (k : String) :
    mapFind (mapDelete m k) k = none := by
  simp only [mapFind, mapDelete]
  rw [find_filter_self_none]
  rfl

theorem setQueryPairs_cons (v : Values) (p : String × String) (rest : List (String × String)) :
    setQueryPairs v (p :: rest) = setQueryPairs (if p.2 != "" then v.set p.1 p.2 else v) rest := rfl

theorem setQueryPairs_nil (v : Values) : setQueryPairs v [] = v := rfl

theorem mem_of_mem_setQueryPairs_empty (pairs : List (String × String)) (v : Values)
    (k : String) (h : (k, "") ∈ setQueryPairs v pairs) : (k, "") ∈ v := by
  induction pairs generalizing v with
  | nil => simpa [setQueryPairs_nil] using h
  | cons p rest ih =>
    rw [setQueryPairs_cons] at h
    by_cases hp : p.2 = ""
    · have hb : (p.2 != "") = false := by simp [hp]
      rw [hb] at h
      simp only [Bool.false_eq_true, if_false] at h
      exact ih v h
    · have hb : (p.2 != "") = true := by simp [hp]
      rw [hb] at h
      simp only [if_true] at h
      have h2 := ih _ h
      simp only [Values.set] at h2
      rcases List.mem_append.mp h2 with hl | hr
      · exact List.mem_of_mem_filter hl
      · simp only [List.mem_singleton, Prod.mk.injEq] at hr
        exact absurd hr.2.symm hp

theorem get_setQueryPairs_of_not_mem (pairs : List (String × String)) (v : Values)
    (k : String) (h : ∀ p ∈ pairs, p.1 ≠ k) :
    (setQueryPairs v pairs).get k = v.get k := by
  induction pairs generalizing v with
  | nil => rw [setQueryPairs_nil]
  | cons p rest ih =>
    rw [setQueryPairs_cons]
    have hrest : ∀ q ∈ rest, q.1 ≠ k := fun q hq => h q (List.mem_cons_of_mem p hq)
    by_cases hp : p.2 = ""
    · have hb : (p.2 != "") = false := by simp [hp]
      rw [hb]
      simp only [Bool.false_eq_true, if_false]
      exact ih v hrest
    · have hb : (p.2 != "") = true := by simp [hp]
      rw [hb]
      simp only [if_true]
      rw [ih _ hrest]
      exact Values.get_set_ne v p.1 k p.2 (Ne.symm (h p (List.mem_cons_self p rest)))

theorem hasKey_setQueryPairs_of_empty (pairs : List (String × String)) (v : Values)
    (k : String) (h : ∀ p ∈ pairs, p.1 = k → p.2 = "") :
    (setQueryPairs v pairs).hasKey k = v.hasKey k := by
  induction pairs generalizing v with
  | nil => rw [setQueryPairs_nil]
  | cons p rest ih =>
    rw [setQueryPairs_cons]
    have hrest : ∀ q ∈ rest, q.1 = k → q.2 = "" :=
      fun q hq => h q (List.mem_cons_of_mem p hq)
    by_cases hp : p.2 = ""
    · have hb : (p.2 != "") = false := by simp [hp]
      rw [hb]
      simp only [Bool.false_eq_true, if_false]
      exact ih v hrest
    · have hb : (p.2 != "") = true := by simp [hp]
      rw [hb]
      simp only [if_true]
      rw [ih _ hrest]
      have hk : p.1 ≠ k := fun hk => hp (h p (List.mem_cons_self p rest) hk)
      exact Values.hasKey_set_ne v p.1 k p.2 (Ne.symm hk)

/-! ### Claim theorems -/

/-- C1 (code_bug evaluation): authorization codes are intended to be
single-use, but the store never invalidates a code on exchange. At the
failing input — code `code1` registered for `client1` with redirect URI
`https://cb.example/` — a first exchange succeeds, a second exchange of
the same code also succeeds (issuing a fresh token), and the code is
still registered afterwards. -/
theorem authorization_code_replay_both_exchanges_succeed :
    (StoreImpl.CreateAccessToken "tok1"
        (NewBasicAuthCache.RegisterAuthCode "client1" "scope1" "https://cb.example/" "code1")
        ⟨"authorization_code", "code1", "https://cb.example/"⟩).1 = .ok ("tok1", "bearer", 3600) ∧
    (StoreImpl.CreateAccessToken "tok2"
        (StoreImpl.CreateAccessToken "tok1"
          (NewBasicAuthCache.RegisterAuthCode "client1" "scope1" "https://cb.example/" "code1")
          ⟨"authorization_code", "code1", "https://cb.example/"⟩).2
        ⟨"authorization_code", "code1", "https://cb.example/"⟩).1 = .ok ("tok2", "bearer", 3600) ∧
    (StoreImpl.CreateAccessToken "tok2"
        (StoreImpl.CreateAccessToken "tok1"
          (NewBasicAuthCache.RegisterAuthCode "client1" "scope1" "https://cb.example/" "code1")
          ⟨"authorization_code", "code1", "https://cb.example/"⟩).2
        ⟨"authorization_code", "code1", "https://cb.example/"⟩).2.LookupAuthCode "code1" =
      .ok ("client1", "scope1", "https://cb.example/") := by
  refine ⟨by decide, by decide, by decide⟩

/-- C2 counterexample: for the request `client_id=client1,
response_type=blah, redirect_uri=https://cb.example/` the redirect URI
resolves and validation fails with `unsupported_response_type`, yet
`HandleOAuthRequest` issues no error redirect (no 302) and instead
returns the error directly to the caller — refuting the claim that the
error is encoded into the redirect target, and that resolution is
performed regardless of a validation failure. -/
theorem validation_error_not_redirected_counterexample :
    validateRedirectURI "https://cb.example/" = .ok ⟨"https", "cb.example/", "", ""⟩ ∧
    defaultServer.validateOAuthParams (NewOAuthRequest
      [("client_id", "client1"), ("response_type", "blah"), ("redirect_uri", "https://cb.example/")]) =
      some (NewServerError ErrorCodeUnsupportedResponseType
        "The response type \"blah\" is not supported." "") ∧
    (defaultServer.HandleOAuthRequest "c0" "t0" NewBasicAuthCache
      [("client_id", "client1"), ("response_type", "blah"), ("redirect_uri", "https://cb.example/")]).1 =
      ⟨some (.server (NewServerError ErrorCodeUnsupportedResponseType
        "The response type \"blah\" is not supported." "")), none, none⟩ := by
  refine ⟨by rfl, by decide, by decide⟩

/-- C2 (amended): when parameter validation of an authorization request
fails, `HandleOAuthRequest` skips redirect resolution entirely (it is
guarded by `err == nil`), establishes no redirect target, issues no 302,
never invokes the external authentication capability, and returns the
validation error directly to the caller for out-of-band rendering — even
when the supplied `redirect_uri` would resolve. -/
theorem validation_error_returned_directly (s : Server) (newCode newToken : String)
    (ac : BasicAuthCache) (params : Values) (e : ServerError)
    (hval : s.validateOAuthParams (NewOAuthRequest params) = some e) :
    s.HandleOAuthRequest newCode newToken ac params = (⟨some (.server e), none, none⟩, ac) := by
  simp only [Server.HandleOAuthRequest]
  rw [hval]
  simp [NewOAuthRequest]

/-- C2 witness: the amended behaviour at the concrete request
`client_id=client1, response_type=blah, redirect_uri=https://cb.example/`. -/
theorem validation_error_returned_directly_witness :
    defaultServer.HandleOAuthRequest "c0" "t0" NewBasicAuthCache
      [("client_id", "client1"), ("response_type", "blah"), ("redirect_uri", "https://cb.example/")] =
      (⟨some (.server (NewServerError ErrorCodeUnsupportedResponseType
        "The response type \"blah\" is not supported." "")), none, none⟩, NewBasicAuthCache) := by
  exact validation_error_returned_directly defaultServer "c0" "t0" NewBasicAuthCache
    [("client_id", "client1"), ("response_type", "blah"), ("redirect_uri", "https://cb.example/")]
    (NewServerError ErrorCodeUnsupportedResponseType
      "The response type \"blah\" is not supported." "") (by decide)

/-- C3: for a token-exchange request whose code is found in the store,
a presented `redirect_uri` that is not exactly string-equal to the one
recorded at issuance yields the `bad_redirect_uri` `ServerError` and no
token (the cache is unchanged); exact string equality yields a fresh
registered access token. -/
theorem exchange_requires_exact_redirect_uri (ac : BasicAuthCache) (r : AccessTokenRequest)
    (newToken cid scope uri : String)
    (hfound : ac.LookupAuthCode r.Code = .ok (cid, scope, uri)) :
    (uri ≠ r.RedirectURI →
      StoreImpl.CreateAccessToken newToken ac r =
        (.err (.server (NewServerError ErrorCodeBadRedirectURI "Redirect URI Incorrect." "")), ac)) ∧
    (uri = r.RedirectURI →
      (StoreImpl.CreateAccessToken newToken ac r).1 = .ok (newToken, "bearer", TokenExpiry) ∧
      mapFind (StoreImpl.CreateAccessToken newToken ac r).2.AccessTokens newToken =
        some ⟨cid, scope, ""⟩) := by
  constructor
  · intro hne
    simp [StoreImpl.CreateAccessToken, hfound, hne]
  · intro heq
    simp [StoreImpl.CreateAccessToken, hfound, heq, BasicAuthCache.RegisterAccessToken,
      mapFind_mapSet_self]

/-- C3 witness: with `code1` recorded under `https://cb.example/`,
exchanging with `https://evil.example/` fails with `bad_redirect_uri`
and exchanging with the exact recorded string succeeds. -/
theorem exchange_requires_exact_redirect_uri_witness :
    (StoreImpl.CreateAccessToken "tok1"
      (NewBasicAuthCache.RegisterAuthCode "client1" "sc" "https://cb.example/" "code1")
      ⟨"authorization_code", "code1", "https://evil.example/"⟩ =
      (.err (.server (NewServerError ErrorCodeBadRedirectURI "Redirect URI Incorrect." "")),
        NewBasicAuthCache.RegisterAuthCode "client1" "sc" "https://cb.example/" "code1")) ∧
    (StoreImpl.CreateAccessToken "tok1"
      (NewBasicAuthCache.RegisterAuthCode "client1" "sc" "https://cb.example/" "code1")
      ⟨"authorization_code", "code1", "https://cb.example/"⟩).1 =
      .ok ("tok1", "bearer", TokenExpiry) := by
  refine ⟨(exchange_requires_exact_redirect_uri
      (NewBasicAuthCache.RegisterAuthCode "client1" "sc" "https://cb.example/" "code1")
      ⟨"authorization_code", "code1", "https://evil.example/"⟩
      "tok1" "client1" "sc" "https://cb.example/" (by decide)).1 (by decide),
    ((exchange_requires_exact_redirect_uri
      (NewBasicAuthCache.RegisterAuthCode "client1" "sc" "https://cb.example/" "code1")
      ⟨"authorization_code", "code1", "https://cb.example/"⟩
      "tok1" "client1" "sc" "https://cb.example/" (by decide)).2 (by decide)).1⟩

/-- C4: authorization-request validation produces at most one
`ServerError`, applying the checks in fixed order with the first failure
winning: empty `client_id` → `invalid_request`; else empty
`response_type` → `invalid_request`; else `response_type` outside
`{code, token}` → `unsupported_response_type`; in particular a request
with both an empty `client_id` and an unsupported `response_type` yields
`invalid_request`, never `unsupported_response_type`. -/
theorem validation_first_error_wins (s : Server) (req : OAuthRequest) :
    (req.ClientID = "" →
      s.validateOAuthParams req =
        some (s.NewError ErrorCodeInvalidRequest "The \"client_id\" parameter is missing.")) ∧
    (req.ClientID ≠ "" → req.ResponseType = "" →
      s.validateOAuthParams req =
        some (s.NewError ErrorCodeInvalidRequest "The \"response_type\" parameter is missing.")) ∧
    (req.ClientID ≠ "" → req.ResponseType ≠ "" →
      req.ResponseType ≠ "code" → req.ResponseType ≠ "token" →
      s.validateOAuthParams req =
        some (s.NewError ErrorCodeUnsupportedResponseType
          ("The response type \"" ++ req.ResponseType ++ "\" is not supported."))) ∧
    (req.ClientID = "" → req.ResponseType ≠ "code" → req.ResponseType ≠ "token" →
      (s.validateOAuthParams req).map ServerError.code = some ErrorCodeInvalidRequest) := by
  refine ⟨?_, ?_, ?_, ?_⟩
  · intro h1
    simp [Server.validateOAuthParams, h1]
  · intro h1 h2
    simp [Server.validateOAuthParams, h1, h2]
  · intro h1 h2 h3 h4
    simp [Server.validateOAuthParams, h1, h2, h3, h4]
  · intro h1 _ _
    simp [Server.validateOAuthParams, h1, Server.NewError, NewServerError]

/-- C4 witness: a request with empty `client_id` and
`response_type=blah` validates to an `invalid_request` error. -/
theorem validation_first_error_wins_witness :
    (defaultServer.validateOAuthParams (NewOAuthRequest [("response_type", "blah")])).map
      ServerError.code = some ErrorCodeInvalidRequest := by
  exact (validation_first_error_wins defaultServer
    (NewOAuthRequest [("response_type", "blah")])).2.2.2 (by decide) (by decide) (by decide)

/-- C5 counterexample: on the code-flow redirect path, a collaborator
error that is not a structured `ServerError` (message `boom`) is encoded
with code `access_denied` — not `server_error` — refuting the claim that
every propagation path wraps such errors as `server_error`. -/
theorem plain_error_wrap_counterexample :
    (OAuthRequest.AuthCodeRedirectQuery
      ⟨"client1", "code", "https://cb.example/", some ⟨"https", "cb.example/", "", ""⟩, "", "s1"⟩
      "c0" NewBasicAuthCache (some (.plain "boom"))).1.get "error" = ErrorCodeAccessDenied ∧
    (OAuthRequest.AuthCodeRedirectQuery
      ⟨"client1", "code", "https://cb.example/", some ⟨"https", "cb.example/", "", ""⟩, "", "s1"⟩
      "c0" NewBasicAuthCache (some (.plain "boom"))).1.get "error_description" = "boom" ∧
    ErrorCodeAccessDenied ≠ ErrorCodeServerError := by
  refine ⟨by decide, by decide, by decide⟩

/-- C5 (amended): a collaborator error that is not already a structured
`ServerError` is wrapped before being encoded, but differently per path:
the code-flow and implicit-flow redirect paths wrap it as
`access_denied`, preserving its message text as the description; the
direct JSON path (`InterpretError`) wraps it as `server_error` but
stores as description the error string of the zero-valued `ServerError`
left by the failed type assertion, not the original message; bearer
verification never propagates a wrapped store error — any error it
returns has code `invalid_request` or `invalid_token`. -/
theorem plain_error_wrapping_paths :
    (∀ (req : OAuthRequest) (nc : String) (ac : BasicAuthCache) (msg : String), msg ≠ "" →
      (req.AuthCodeRedirectQuery nc ac (some (.plain msg))).1.get "error" = ErrorCodeAccessDenied ∧
      (req.AuthCodeRedirectQuery nc ac (some (.plain msg))).1.get "error_description" = msg) ∧
    (∀ (req : OAuthRequest) (nt : String) (ac : BasicAuthCache) (msg : String), msg ≠ "" →
      (req.ImplicitRedirectQuery nt ac (some (.plain msg))).1.get "error" = ErrorCodeAccessDenied ∧
      (req.ImplicitRedirectQuery nt ac (some (.plain msg))).1.get "error_description" = msg) ∧
    (∀ (s : Server) (msg : String),
      (s.InterpretError (.plain msg)).code = ErrorCodeServerError ∧
      (s.InterpretError (.plain msg)).description = ServerError.errorString ⟨"", "", ""⟩) ∧
    (∀ (s : Server) (ac : BasicAuthCache) (tok : String) (e : ServerError),
      s.VerifyToken ac tok = some e →
      e.code = ErrorCodeInvalidRequest ∨ e.code = ErrorCodeInvalidToken) := by
  have herr : ∀ (q : Values) (msg : String), msg ≠ "" →
      (encodeErrorPairs q (.plain msg)).get "error" = ErrorCodeAccessDenied ∧
      (encodeErrorPairs q (.plain msg)).get "error_description" = msg := by
    intro q msg hmsg
    have hb : (msg != "") = true := by simpa using hmsg
    constructor
    · rw [encodeErrorPairs, setQueryPairs_cons]
      rw [show (ErrorCodeAccessDenied != "") = true from by decide]
      simp only [if_true]
      rw [get_setQueryPairs_of_not_mem _ _ _ (by
        intro p hp
        simp at hp
        rcases hp with h | h <;> simp [h])]
      exact Values.get_set_self _ _ _
    · rw [encodeErrorPairs, setQueryPairs_cons, setQueryPairs_cons]
      rw [show (ErrorCodeAccessDenied != "") = true from by decide]
      simp only [if_true, hb]
      rw [get_setQueryPairs_of_not_mem _ _ _ (by
        intro p hp
        simp at hp
        simp [hp])]
      exact Values.get_set_self _ _ _
  refine ⟨?_, ?_, ?_, ?_⟩
  · intro req nc ac msg hmsg
    exact herr _ msg hmsg
  · intro req nt ac msg hmsg
    exact herr _ msg hmsg
  · intro s msg
    constructor
    · simp [Server.InterpretError, Server.NewError, NewServerError]
    · simp [Server.InterpretError, Server.NewError, NewServerError]
  · intro s ac tok e h
    by_cases h1 : tok = ""
    · simp only [Server.VerifyToken, h1, if_true] at h
      left
      simp only [Option.some_inj] at h
      rw [← h]
      rfl
    · simp only [Server.VerifyToken, h1, if_false] at h
      by_cases h2 : StoreImpl.ValidateAccessToken ac tok
      · simp [h2] at h
      · simp only [h2, Bool.not_false, if_true] at h
        right
        simp only [Option.some_inj] at h
        rw [← h]
        rfl

/-- C5 witness: the amended behaviour at the concrete message
`backend down` on the implicit redirect path and the direct JSON path,
and for a concrete failing bearer verification. -/
theorem plain_error_wrapping_paths_witness :
    (OAuthRequest.ImplicitRedirectQuery
      ⟨"client1", "token", "https://cb.example/", some ⟨"https", "cb.example/", "", ""⟩, "", "s1"⟩
      "t0" NewBasicAuthCache (some (.plain "backend down"))).1.get "error" = ErrorCodeAccessDenied ∧
    (defaultServer.InterpretError (.plain "backend down")).description =
      ServerError.errorString ⟨"", "", ""⟩ ∧
    ("invalid_token" = ErrorCodeInvalidRequest ∨ "invalid_token" = ErrorCodeInvalidToken) := by
  refine ⟨(plain_error_wrapping_paths.2.1
      ⟨"client1", "token", "https://cb.example/", some ⟨"https", "cb.example/", "", ""⟩, "", "s1"⟩
      "t0" NewBasicAuthCache "backend down" (by decide)).1,
    (plain_error_wrapping_paths.2.2.1 defaultServer "backend down").2,
    plain_error_wrapping_paths.2.2.2 defaultServer
      (NewBasicAuthCache.RegisterAccessToken "c" "" "t").2 "zzz"
      (defaultServer.NewError ErrorCodeInvalidToken "The Access Token is invalid.") (by decide)⟩

/-- C6: bearer verification — an absent `Authorization` header fails
with `invalid_request`; a token never issued, or issued and then expired
past its TTL (its delayed deletion fired), fails with `invalid_token`;
on any failure `TokenVerifier` responds with status 401 and the wrapped
handler does not execute; a token within TTL lets the wrapped resource
handler execute. -/
theorem bearer_verification_contract (s : Server) (ac : BasicAuthCache)
    (cid scope tok : String) (hne : tok ≠ "") :
    (s.VerifyToken ac "" =
      some (s.NewError ErrorCodeInvalidRequest
        "The \"Authorization\" header field is missing.")) ∧
    (s.TokenVerifier ac "" = .rejected 401
      (s.NewError ErrorCodeInvalidRequest
        "The \"Authorization\" header field is missing.").errorString) ∧
    (ac.LookupAccessToken tok = false →
      s.VerifyToken ac tok =
        some (s.NewError ErrorCodeInvalidToken "The Access Token is invalid.") ∧
      s.TokenVerifier ac tok = .rejected 401
        (s.NewError ErrorCodeInvalidToken "The Access Token is invalid.").errorString) ∧
    (s.VerifyToken (((ac.RegisterAccessToken cid scope tok).2).DeleteAccessToken tok) tok =
      some (s.NewError ErrorCodeInvalidToken "The Access Token is invalid.")) ∧
    (s.TokenVerifier ((ac.RegisterAccessToken cid scope tok).2) tok = .handlerExecuted) := by
  refine ⟨?_, ?_, ?_, ?_, ?_⟩
  · simp [Server.VerifyToken]
  · simp [Server.TokenVerifier, Server.VerifyToken, GoError.errorMsg]
  · intro hmiss
    constructor
    · simp [Server.VerifyToken, hne, StoreImpl.ValidateAccessToken, hmiss]
    · simp [Server.TokenVerifier, Server.VerifyToken, hne, StoreImpl.ValidateAccessToken, hmiss,
        GoError.errorMsg]
  · simp [Server.VerifyToken, hne, StoreImpl.ValidateAccessToken,
      BasicAuthCache.LookupAccessToken, BasicAuthCache.DeleteAccessToken,
      BasicAuthCache.RegisterAccessToken, mapFind_mapDelete_self]
  · simp [Server.TokenVerifier, Server.VerifyToken, hne, StoreImpl.ValidateAccessToken,
      BasicAuthCache.LookupAccessToken, BasicAuthCache.RegisterAccessToken, mapFind_mapSet_self]

/-- C6 witness: the contract at the concrete token `tokX`: missing
header and unknown token are rejected, and the token verifies after
registration. -/
theorem bearer_verification_contract_witness :
    (defaultServer.VerifyToken NewBasicAuthCache "" =
      some (defaultServer.NewError ErrorCodeInvalidRequest
        "The \"Authorization\" header field is missing.")) ∧
    (defaultServer.VerifyToken NewBasicAuthCache "tokX" =
      some (defaultServer.NewError ErrorCodeInvalidToken "The Access Token is invalid.")) ∧
    defaultServer.TokenVerifier ((NewBasicAuthCache.RegisterAccessToken "client1" "" "tokX").2)
      "tokX" = .handlerExecuted := by
  refine ⟨(bearer_verification_contract defaultServer NewBasicAuthCache "client1" "" "tokX"
      (by decide)).1,
    ((bearer_verification_contract defaultServer NewBasicAuthCache "client1" "" "tokX"
      (by decide)).2.2.1 (by decide)).1,
    (bearer_verification_contract defaultServer NewBasicAuthCache "client1" "" "tokX"
      (by decide)).2.2.2.2⟩

/-- C7: authorization-endpoint results are encoded in the query string
for the code flow and in the URI fragment for the implicit flow, with
`state` carried verbatim when supplied: a successful code-flow redirect
carries a non-empty `code` and the original `state` in the query and no
fragment; a successful implicit-flow redirect carries `token`,
`token_type` (`bearer`), `expires_in` and `state` in the fragment with
the query untouched; error results are carried in the same target
(query for code, fragment for implicit) together with `state`. -/
theorem redirect_encoding_query_vs_fragment (req : OAuthRequest) (u : URL) (ac : BasicAuthCache)
    (newCode newToken : String) (e : ServerError)
    (hred : req.RedirectURI = some u) (hfrag : u.fragment = "")
    (hcode : newCode ≠ "") (htok : newToken ≠ "") (hstate : req.State ≠ "")
    (hecode : e.code ≠ "") :
    ((req.AuthCodeRedirect newCode ac none).1.fragment = "" ∧
      (req.AuthCodeRedirect newCode ac none).1.rawQuery =
        (req.AuthCodeRedirectQuery newCode ac none).1.encode ∧
      (req.AuthCodeRedirectQuery newCode ac none).1.get "code" = newCode ∧
      (req.AuthCodeRedirectQuery newCode ac none).1.get "code" ≠ "" ∧
      (req.AuthCodeRedirectQuery newCode ac none).1.get "state" = req.State) ∧
    ((req.ImplicitRedirect newToken ac none).1.rawQuery = u.rawQuery ∧
      (req.ImplicitRedirect newToken ac none).1.fragment =
        (req.ImplicitRedirectQuery newToken ac none).1.encode ∧
      (req.ImplicitRedirectQuery newToken ac none).1.get "token" = newToken ∧
      (req.ImplicitRedirectQuery newToken ac none).1.get "token_type" = "bearer" ∧
      (req.ImplicitRedirectQuery newToken ac none).1.get "expires_in" = "3600" ∧
      (req.ImplicitRedirectQuery newToken ac none).1.get "state" = req.State) ∧
    ((req.AuthCodeRedirect newCode ac (some (.server e))).1.fragment = "" ∧
      (req.AuthCodeRedirectQuery newCode ac (some (.server e))).1.get "error" = e.code ∧
      (req.AuthCodeRedirectQuery newCode ac (some (.server e))).1.get "state" = req.State) ∧
    ((req.ImplicitRedirect newToken ac (some (.server e))).1.rawQuery = u.rawQuery ∧
      (req.ImplicitRedirectQuery newToken ac (some (.server e))).1.get "error" = e.code ∧
      (req.ImplicitRedirectQuery newToken ac (some (.server e))).1.get "state" = req.State) := by
  have hstb : (req.State != "") = true := by simpa using hstate
  have htokb : (newToken != "") = true := by simpa using htok
  have hecb : (e.code != "") = true := by simpa using hecode
  have hget_err : ∀ (q : Values),
      (encodeErrorPairs q (.server e)).get "error" = e.code := by
    intro q
    rw [encodeErrorPairs, setQueryPairs_cons, hecb]
    simp only [if_true]
    rw [get_setQueryPairs_of_not_mem _ _ _ (by
      intro p hp
      simp at hp
      rcases hp with h | h <;> simp [h])]
    exact Values.get_set_self _ _ _
  have hget_state_err : ∀ (q : Values),
      (encodeErrorPairs q (.server e)).get "state" = q.get "state" := by
    intro q
    rw [encodeErrorPairs]
    rw [get_setQueryPairs_of_not_mem _ _ _ (by
      intro p hp
      simp at hp
      rcases hp with h | h | h <;> simp [h])]
  refine ⟨⟨?_, ?_, ?_, ?_, ?_⟩, ⟨?_, ?_, ?_, ?_, ?_, ?_⟩, ⟨?_, ?_, ?_⟩, ⟨?_, ?_, ?_⟩⟩
  · simp [OAuthRequest.AuthCodeRedirect, hred, hfrag]
  · simp [OAuthRequest.AuthCodeRedirect]
  · simp only [OAuthRequest.AuthCodeRedirectQuery, hred, Option.getD_some]
    exact Values.get_set_self _ _ _
  · simp only [OAuthRequest.AuthCodeRedirectQuery, hred, Option.getD_some]
    rw [Values.get_set_self]
    exact hcode
  · simp only [OAuthRequest.AuthCodeRedirectQuery, hred, Option.getD_some,
      setQueryPairs_cons, setQueryPairs_nil, hstb, if_true]
    rw [Values.get_set_ne _ _ _ _ (by decide)]
    exact Values.get_set_self _ _ _
  · simp [OAuthRequest.ImplicitRedirect, hred]
  · simp [OAuthRequest.ImplicitRedirect]
  · simp only [OAuthRequest.ImplicitRedirectQuery, hred, Option.getD_some,
      StoreImpl.CreateImplicitAccessToken, BasicAuthCache.RegisterAccessToken,
      setQueryPairs_cons, setQueryPairs_nil, hstb, htokb, if_true]
    rw [if_pos (show TokenExpiry > 0 from by decide)]
    rw [if_pos (show ((toString TokenExpiry) != "") = true from by decide)]
    rw [if_pos (show (("bearer" : String) != "") = true from by decide)]
    rw [Values.get_set_ne _ _ _ _ (by decide), Values.get_set_ne _ _ _ _ (by decide)]
    exact Values.get_set_self _ _ _
  · simp only [OAuthRequest.ImplicitRedirectQuery, hred, Option.getD_some,
      StoreImpl.CreateImplicitAccessToken, BasicAuthCache.RegisterAccessToken,
      setQueryPairs_cons, setQueryPairs_nil, hstb, htokb, if_true]
    rw [if_pos (show TokenExpiry > 0 from by decide)]
    rw [if_pos (show ((toString TokenExpiry) != "") = true from by decide)]
    rw [if_pos (show (("bearer" : String) != "") = true from by decide)]
    rw [Values.get_set_ne _ _ _ _ (by decide)]
    exact Values.get_set_self _ _ _
  · simp only [OAuthRequest.ImplicitRedirectQuery, hred, Option.getD_some,
      StoreImpl.CreateImplicitAccessToken, BasicAuthCache.RegisterAccessToken,
      setQueryPairs_cons, setQueryPairs_nil, hstb, htokb, if_true]
    rw [if_pos (show TokenExpiry > 0 from by decide)]
    rw [if_pos (show ((toString TokenExpiry) != "") = true from by decide)]
    rw [if_pos (show (("bearer" : String) != "") = true from by decide)]
    have h36 : toString TokenExpiry = "3600" := by decide
    rw [h36]
    exact Values.get_set_self _ _ _
  · simp only [OAuthRequest.ImplicitRedirectQuery, hred, Option.getD_some,
      StoreImpl.CreateImplicitAccessToken, BasicAuthCache.RegisterAccessToken,
      setQueryPairs_cons, setQueryPairs_nil, hstb, htokb, if_true]
    rw [if_pos (show TokenExpiry > 0 from by decide)]
    rw [if_pos (show ((toString TokenExpiry) != "") = true from by decide)]
    rw [if_pos (show (("bearer" : String) != "") = true from by decide)]
    rw [Values.get_set_ne _ _ _ _ (by decide), Values.get_set_ne _ _ _ _ (by decide),
      Values.get_set_ne _ _ _ _ (by decide)]
    exact Values.get_set_self _ _ _
  · simp [OAuthRequest.AuthCodeRedirect, hred, hfrag]
  · simp only [OAuthRequest.AuthCodeRedirectQuery, hred, Option.getD_some]
    exact hget_err _
  · simp only [OAuthRequest.AuthCodeRedirectQuery, hred, Option.getD_some]
    rw [hget_state_err]
    simp only [setQueryPairs_cons, setQueryPairs_nil, hstb, if_true]
    exact Values.get_set_self _ _ _
  · simp [OAuthRequest.ImplicitRedirect, hred]
  · simp only [OAuthRequest.ImplicitRedirectQuery, hred, Option.getD_some]
    exact hget_err _
  · simp only [OAuthRequest.ImplicitRedirectQuery, hred, Option.getD_some]
    rw [hget_state_err]
    simp only [setQueryPairs_cons, setQueryPairs_nil, hstb, if_true]
    exact Values.get_set_self _ _ _

/-- C7 witness: the encodings at the concrete request
`client_id=client1, redirect_uri=https://cb.example/, state=s1` with
generated code `abc123` and token `tokX`. -/
theorem redirect_encoding_query_vs_fragment_witness :
    (OAuthRequest.AuthCodeRedirect
      ⟨"client1", "code", "https://cb.example/", some ⟨"https", "cb.example/", "", ""⟩, "", "s1"⟩
      "abc123" NewBasicAuthCache none).1.fragment = "" ∧
    (OAuthRequest.AuthCodeRedirectQuery
      ⟨"client1", "code", "https://cb.example/", some ⟨"https", "cb.example/", "", ""⟩, "", "s1"⟩
      "abc123" NewBasicAuthCache none).1.get "code" = "abc123" ∧
    (OAuthRequest.AuthCodeRedirectQuery
      ⟨"client1", "code", "https://cb.example/", some ⟨"https", "cb.example/", "", ""⟩, "", "s1"⟩
      "abc123" NewBasicAuthCache none).1.get "state" = "s1" ∧
    (OAuthRequest.ImplicitRedirectQuery
      ⟨"client1", "token", "https://cb.example/", some ⟨"https", "cb.example/", "", ""⟩, "", "s1"⟩
      "tokX" NewBasicAuthCache none).1.get "token" = "tokX" ∧
    (OAuthRequest.AuthCodeRedirectQuery
      ⟨"client1", "code", "https://cb.example/", some ⟨"https", "cb.example/", "", ""⟩, "", "s1"⟩
      "abc123" NewBasicAuthCache
      (some (.server (NewServerError ErrorCodeAccessDenied "access denied" "")))).1.get "error" =
      ErrorCodeAccessDenied := by
  refine ⟨(redirect_encoding_query_vs_fragment
      ⟨"client1", "code", "https://cb.example/", some ⟨"https", "cb.example/", "", ""⟩, "", "s1"⟩
      ⟨"https", "cb.example/", "", ""⟩ NewBasicAuthCache "abc123" "tokX"
      (NewServerError ErrorCodeAccessDenied "access denied" "")
      rfl rfl (by decide) (by decide) (by decide) (by decide)).1.1,
    (redirect_encoding_query_vs_fragment
      ⟨"client1", "code", "https://cb.example/", some ⟨"https", "cb.example/", "", ""⟩, "", "s1"⟩
      ⟨"https", "cb.example/", "", ""⟩ NewBasicAuthCache "abc123" "tokX"
      (NewServerError ErrorCodeAccessDenied "access denied" "")
      rfl rfl (by decide) (by decide) (by decide) (by decide)).1.2.2.1,
    (redirect_encoding_query_vs_fragment
      ⟨"client1", "code", "https://cb.example/", some ⟨"https", "cb.example/", "", ""⟩, "", "s1"⟩
      ⟨"https", "cb.example/", "", ""⟩ NewBasicAuthCache "abc123" "tokX"
      (NewServerError ErrorCodeAccessDenied "access denied" "")
      rfl rfl (by decide) (by decide) (by decide) (by decide)).1.2.2.2.2,
    (redirect_encoding_query_vs_fragment
      ⟨"client1", "token", "https://cb.example/", some ⟨"https", "cb.example/", "", ""⟩, "", "s1"⟩
      ⟨"https", "cb.example/", "", ""⟩ NewBasicAuthCache "abc123" "tokX"
      (NewServerError ErrorCodeAccessDenied "access denied" "")
      rfl rfl (by decide) (by decide) (by decide) (by decide)).2.1.2.2.1,
    (redirect_encoding_query_vs_fragment
      ⟨"client1", "code", "https://cb.example/", some ⟨"https", "cb.example/", "", ""⟩, "", "s1"⟩
      ⟨"https", "cb.example/", "", ""⟩ NewBasicAuthCache "abc123" "tokX"
      (NewServerError ErrorCodeAccessDenied "access denied" "")
      rfl rfl (by decide) (by decide) (by decide) (by decide)).2.2.1.2.1⟩

/-- C8: `masterHandlerImpl` dispatches on the presence of the
`response_type` query parameter alone: non-empty selects the
authorization endpoint, empty selects token exchange. -/
theorem master_dispatch_on_response_type (params : Values) :
    (params.get "response_type" ≠ "" → masterHandlerImpl params = .oauthRequest) ∧
    (params.get "response_type" = "" → masterHandlerImpl params = .accessTokenRequest) := by
  constructor
  · intro h
    simp [masterHandlerImpl, h]
  · intro h
    simp [masterHandlerImpl, h]

/-- C8 witness: a token-exchange-shaped request that also carries
`response_type=code` is dispatched to the authorization endpoint. -/
theorem master_dispatch_on_response_type_witness :
    masterHandlerImpl [("grant_type", "authorization_code"), ("code", "x"),
      ("redirect_uri", "https://cb.example/"), ("response_type", "code")] = .oauthRequest := by
  exact (master_dispatch_on_response_type [("grant_type", "authorization_code"), ("code", "x"),
    ("redirect_uri", "https://cb.example/"), ("response_type", "code")]).1 (by decide)

/-- C9: basic cache round-trip — `RegisterAuthCode` followed by
`LookupAuthCode` of the same code (before its TTL deletion fires)
returns exactly the registered client, scope and redirect URI with a nil
error, and `LookupAuthCode` of a code not in the cache returns the
`AuthCode not found in Cache!` error. -/
theorem basic_cache_roundtrip (ac : BasicAuthCache) (cid scope uri code : String) :
    ((ac.RegisterAuthCode cid scope uri code).LookupAuthCode code = .ok (cid, scope, uri)) ∧
    (∀ c, mapFind ac.AuthCodes c = none →
      ac.LookupAuthCode c = .err (.plain "AuthCode not found in Cache!")) := by
  constructor
  · simp [BasicAuthCache.RegisterAuthCode, BasicAuthCache.LookupAuthCode, mapFind_mapSet_self]
  · intro c hc
    simp [BasicAuthCache.LookupAuthCode, hc]

/-- C9 witness: the round-trip at concrete values, and the error for
the unregistered code `nope`. -/
theorem basic_cache_roundtrip_witness :
    ((NewBasicAuthCache.RegisterAuthCode "client1" "sc" "https://cb.example/" "c1").LookupAuthCode
      "c1" = .ok ("client1", "sc", "https://cb.example/")) ∧
    NewBasicAuthCache.LookupAuthCode "nope" = .err (.plain "AuthCode not found in Cache!") := by
  exact ⟨(basic_cache_roundtrip NewBasicAuthCache "client1" "sc" "https://cb.example/" "c1").1,
    (basic_cache_roundtrip NewBasicAuthCache "" "" "" "").2 "nope" (by decide)⟩

/-- C10 counterexample: a redirect produced by `AuthCodeRedirect` can
contain a parameter with an empty value — when the registered redirect
URI itself carries one (`https://cb.example/x?foo=`), the empty-valued
`foo` passes through into the produced redirect query. -/
theorem empty_value_passthrough_counterexample :
    ("foo", "") ∈ parseQuery ((OAuthRequest.AuthCodeRedirect
      ⟨"client1", "code", "https://cb.example/x?foo=", some (parseURL "https://cb.example/x?foo="),
        "", ""⟩ "c0" NewBasicAuthCache none).1.rawQuery) := by
  decide

/-- C10 (amended): `setQueryPairs` skips every key whose value is the
empty string, so `AuthCodeRedirect` and `ImplicitRedirect` never add an
empty-valued parameter of their own: every empty-valued pair in the
produced query (resp. fragment) was already present in the registered
redirect URI's query (resp. fragment); in particular, with no
pre-existing `state` parameter, a request that supplied no state yields
a redirect without a `state` key, and with no pre-existing `error_uri`
parameter, an error redirect for an error without a registered URI
carries no `error_uri` key. Empty-valued parameters already present in
the redirect URI do pass through. -/
theorem no_empty_value_added :
    (∀ (pairs : List (String × String)) (v : Values) (k : String),
      (k, "") ∈ setQueryPairs v pairs → (k, "") ∈ v) ∧
    (∀ (req : OAuthRequest) (u : URL) (nc : String) (ac : BasicAuthCache) (k : String),
      req.RedirectURI = some u → nc ≠ "" →
      (k, "") ∈ (req.AuthCodeRedirectQuery nc ac none).1 → (k, "") ∈ u.query) ∧
    (∀ (req : OAuthRequest) (u : URL) (nt : String) (ac : BasicAuthCache) (k : String),
      req.RedirectURI = some u →
      (k, "") ∈ (req.ImplicitRedirectQuery nt ac none).1 → (k, "") ∈ parseQuery u.fragment) ∧
    (∀ (req : OAuthRequest) (u : URL) (nc : String) (ac : BasicAuthCache),
      req.RedirectURI = some u → req.State = "" → u.query.hasKey "state" = false →
      (req.AuthCodeRedirectQuery nc ac none).1.hasKey "state" = false) ∧
    (∀ (req : OAuthRequest) (u : URL) (nc : String) (ac : BasicAuthCache) (e : ServerError),
      req.RedirectURI = some u → e.uri = "" → u.query.hasKey "error_uri" = false →
      (req.AuthCodeRedirectQuery nc ac (some (.server e))).1.hasKey "error_uri" = false) := by
  refine ⟨?_, ?_, ?_, ?_, ?_⟩
  · exact fun pairs v k h => mem_of_mem_setQueryPairs_empty pairs v k h
  · intro req u nc ac k hred hnc hmem
    simp only [OAuthRequest.AuthCodeRedirectQuery, hred, Option.getD_some] at hmem
    simp only [Values.set] at hmem
    rcases List.mem_append.mp hmem with hl | hr
    · exact mem_of_mem_setQueryPairs_empty _ _ _ (List.mem_of_mem_filter hl)
    · simp only [List.mem_singleton, Prod.mk.injEq] at hr
      exact absurd hr.2.symm hnc
  · intro req u nt ac k hred hmem
    simp only [OAuthRequest.ImplicitRedirectQuery, hred, Option.getD_some,
      StoreImpl.CreateImplicitAccessToken, BasicAuthCache.RegisterAccessToken] at hmem
    rw [if_pos (show TokenExpiry > 0 from by decide)] at hmem
    exact mem_of_mem_setQueryPairs_empty _ _ _
      (mem_of_mem_setQueryPairs_empty _ _ _ (mem_of_mem_setQueryPairs_empty _ _ _ hmem))
  · intro req u nc ac hred hst hbase
    simp only [OAuthRequest.AuthCodeRedirectQuery, hred, Option.getD_some]
    rw [Values.hasKey_set_ne _ _ _ _ (by decide)]
    rw [hasKey_setQueryPairs_of_empty _ _ _ (by
      intro p hp
      simp at hp
      simp [hp, hst])]
    exact hbase
  · intro req u nc ac e hred huri hbase
    simp only [OAuthRequest.AuthCodeRedirectQuery, hred, Option.getD_some, encodeErrorPairs]
    rw [hasKey_setQueryPairs_of_empty _ _ _ (by
      intro p hp
      simp at hp
      rcases hp with h | h | h <;> simp [h, huri])]
    rw [hasKey_setQueryPairs_of_empty _ _ _ (by
      intro p hp
      simp at hp
      simp [hp])]
    exact hbase

/-- C10 witness: the amended behaviour at concrete inputs: a
pre-existing empty-valued pair survives `setQueryPairs`, a state-less
request yields no `state` key, and an error without a URI yields no
`error_uri` key. -/
theorem no_empty_value_added_witness :
    (("state", "") ∈ setQueryPairs [("state", "")] [("a", "b")] → ("state", "") ∈
      ([("state", "")] : Values)) ∧
    (OAuthRequest.AuthCodeRedirectQuery
      ⟨"client1", "code", "https://cb.example/", some ⟨"https", "cb.example/", "", ""⟩, "", ""⟩
      "c0" NewBasicAuthCache none).1.hasKey "state" = false ∧
    (OAuthRequest.AuthCodeRedirectQuery
      ⟨"client1", "code", "https://cb.example/", some ⟨"https", "cb.example/", "", ""⟩, "", "s1"⟩
      "c0" NewBasicAuthCache
      (some (.server (NewServerError ErrorCodeAccessDenied "denied" "")))).1.hasKey "error_uri" =
      false := by
  refine ⟨no_empty_value_added.1 [("a", "b")] [("state", "")] "state",
    no_empty_value_added.2.2.2.1
      ⟨"client1", "code", "https://cb.example/", some ⟨"https", "cb.example/", "", ""⟩, "", ""⟩
      ⟨"https", "cb.example/", "", ""⟩ "c0" NewBasicAuthCache rfl rfl (by decide),
    no_empty_value_added.2.2.2.2
      ⟨"client1", "code", "https://cb.example/", some ⟨"https", "cb.example/", "", ""⟩, "", "s1"⟩
      ⟨"https", "cb.example/", "", ""⟩ "c0" NewBasicAuthCache
      (NewServerError ErrorCodeAccessDenied "denied" "") rfl rfl (by decide)⟩

end Goauth2
